import Mathlib

/-!
Shallow embedding of the analytics client (`src/index.js`) of
`thatapicompany/theanalyticsapi`: a JavaScript value model, the message
enricher, the batching queue with its flush triggers, the flush/delivery
engine, the retry classifier, and the constructor.  External collaborators
(md5, uuid, the node runtime version, the current time, the transport
outcome) are passed in as explicit parameters.
-/

namespace TheAnalyticsAPI

/-- A JavaScript value: `null`, booleans, (integral) numbers, strings,
arrays and plain objects (ordered association lists of own properties). -/
inductive JsValue where
  | vNull : JsValue
  | vBool : Bool → JsValue
  | vNum : Int → JsValue
  | vStr : String → JsValue
  | vArr : List JsValue → JsValue
  | vObj : List (String × JsValue) → JsValue
deriving Repr

/-- A JavaScript object: an ordered list of own properties. -/
abbrev Obj := List (String × JsValue)

/-- JavaScript truthiness of a value (`null`, `false`, `0` and the empty
string are falsy; arrays and objects are always truthy). -/
def jsTruthy : JsValue → Bool
  | .vNull => false
  | .vBool b => b
  | .vNum n => n != 0
  | .vStr s => s != ""
  | .vArr _ => true
  | .vObj _ => true

/-- `lodash.isstring`: text-typed values are exactly the strings. -/
def isString : JsValue → Bool
  | .vStr _ => true
  | _ => false

/-- Minimal JSON string escaping (backslash and double quote). -/
def escapeJson (s : String) : String :=
  s.data.foldl
    (fun acc c =>
      if c = '"' then acc ++ "\\\""
      else if c = '\\' then acc ++ "\\\\"
      else acc.push c) ""

mutual

/-- `JSON.stringify`: the structural string serialization of a value. -/
def jsonStringify : JsValue → String
  | .vNull => "null"
  | .vBool true => "true"
  | .vBool false => "false"
  | .vNum n => toString n
  | .vStr s => "\"" ++ escapeJson s ++ "\""
  | .vArr xs => "[" ++ jsonStringifyElems xs ++ "]"
  | .vObj fs => "\x7b" ++ jsonStringifyFields fs ++ "\x7d"

/-- Serialize the comma-separated elements of a JSON array. -/
def jsonStringifyElems : List JsValue → String
  | [] => ""
  | [x] => jsonStringify x
  | x :: xs => jsonStringify x ++ "," ++ jsonStringifyElems xs

/-- Serialize the comma-separated members of a JSON object. -/
def jsonStringifyFields : List (String × JsValue) → String
  | [] => ""
  | [(k, v)] => "\"" ++ escapeJson k ++ "\":" ++ jsonStringify v
  | (k, v) :: fs =>
      "\"" ++ escapeJson k ++ "\":" ++ jsonStringify v ++ "," ++ jsonStringifyFields fs

end

/-- Property read: the first binding of `key`, or `none` when the
property is absent (JavaScript `undefined`). -/
def getField : Obj → String → Option JsValue
  | [], _ => none
  | (k, v) :: rest, key => if k = key then some v else getField rest key

/-- Property read defaulting absence to a falsy, non-string value, the
way an `undefined` read behaves in the truthiness and `isString` tests. -/
def jsGet (o : Obj) (key : String) : JsValue :=
  (getField o key).getD .vNull

/-- Property write: replace the binding of `key` in place if present,
otherwise append it (JavaScript assignment on a plain object). -/
def setField : Obj → String → JsValue → Obj
  | [], key, v => [(key, v)]
  | (k, w) :: rest, key, v =>
      if k = key then (key, v) :: rest else (k, w) :: setField rest key v

/-- `Object.assign(base, overlay)`: copy the overlay's properties onto the
base, in order, so on a key collision the overlay (assigned second) wins. -/
def objAssign (base overlay : Obj) : Obj :=
  overlay.foldl (fun acc kv => setField acc kv.1 kv.2) base

theorem getField_setField (o : Obj) (k : String) (v : JsValue) (k' : String) :
    getField (setField o k v) k' = if k' = k then some v else getField o k' := by
  induction o with
  | nil =>
      by_cases h : k' = k
      · subst h; simp [setField, getField]
      · simp [setField, getField, h, Ne.symm h]
  | cons kv rest ih =>
      obtain ⟨k0, v0⟩ := kv
      by_cases h0 : k0 = k
      · subst h0
        by_cases h1 : k' = k0
        · subst h1; simp [setField, getField]
        · simp [setField, getField, h1, Ne.symm h1]
      · by_cases h1 : k' = k0
        · have h2 : ¬ k' = k := fun hh => h0 (Eq.trans (Eq.symm h1) hh)
          have h3 : k0 = k' := Eq.symm h1
          simp [setField, getField, h0, h2, h3]
        · have h2 : ¬ k0 = k' := fun hh => h1 (Eq.symm hh)
          simp only [setField, if_neg h0, getField, if_neg h2, ih]

theorem getField_setField_ne (o : Obj) (k : String) (v : JsValue) (k' : String)
    (h : k' ≠ k) : getField (setField o k v) k' = getField o k' := by
  rw [getField_setField, if_neg h]

theorem getField_setField_self (o : Obj) (k : String) (v : JsValue) :
    getField (setField o k v) k = some v := by
  rw [getField_setField, if_pos rfl]

/-- If a key is absent from the overlay, `Object.assign` leaves the base's
binding for it untouched. -/
theorem getField_objAssign_of_not_mem (base overlay : Obj) (k : String)
    (h : getField overlay k = none) :
    getField (objAssign base overlay) k = getField base k := by
  induction overlay generalizing base with
  | nil => rfl
  | cons kv rest ih =>
      obtain ⟨k0, v0⟩ := kv
      by_cases h0 : k0 = k
      · simp [getField, h0] at h
      · simp only [getField, h0, if_false] at h
        have := ih (setField base k0 v0) h
        simpa [objAssign, getField_setField_ne _ _ _ _ (fun hk => h0 hk.symm)]
          using this

/-- A key that is not among an object's property names reads as absent. -/
theorem getField_eq_none_of_not_mem (o : Obj) (k : String)
    (h : k ∉ o.map Prod.fst) : getField o k = none := by
  induction o with
  | nil => rfl
  | cons kv rest ih =>
      obtain ⟨k0, v0⟩ := kv
      simp only [List.map_cons, List.mem_cons] at h
      push_neg at h
      have h2 : ¬ k0 = k := fun hh => h.1 (Eq.symm hh)
      simp [getField, h2, ih h.2]

/-- If a key is present in the overlay (whose keys are duplicate-free),
`Object.assign` maps it to the overlay's value: the caller wins. -/
theorem getField_objAssign_of_mem (base overlay : Obj) (k : String) (v : JsValue)
    (hnd : (overlay.map Prod.fst).Nodup) (h : getField overlay k = some v) :
    getField (objAssign base overlay) k = some v := by
  induction overlay generalizing base with
  | nil => simp [getField] at h
  | cons kv rest ih =>
      obtain ⟨k0, v0⟩ := kv
      simp only [List.map_cons, List.nodup_cons] at hnd
      by_cases h0 : k0 = k
      · subst h0
        simp only [getField, if_pos rfl] at h
        have habs : getField rest k0 = none := getField_eq_none_of_not_mem rest k0 hnd.1
        have := getField_objAssign_of_not_mem (setField base k0 v0) rest k0 habs
        rw [← h]
        simpa [objAssign, getField_setField_self] using this
      · simp only [getField, h0, if_false] at h
        have := ih (setField base k0 v0) hnd.2 h
        simpa [objAssign] using this

/-- Library version from `package.json`. -/
def libVersion : String := "1.0.8"

/-- The library-identity base object merged under `context`. -/
def libraryContext : Obj :=
  [("library", .vObj [("name", .vStr "theanalyticsapi"), ("version", .vStr libVersion)])]

/-- The runtime-version base object merged under `_metadata`. -/
def metadataBase (nodeVersion : String) : Obj :=
  [("nodeVersion", .vStr nodeVersion)]

/-- The caller-supplied fields of a property that `Object.assign` copies
from: the object's own properties when it is an object, nothing otherwise
(absent, `null`, and non-string primitives contribute no properties). -/
def ownFields : Option JsValue → Obj
  | some (.vObj fs) => fs
  | _ => []

/-- The first half of the enricher (src/index.js lines 96-119): shallow
copy, `type`, the `context` and `_metadata` merges, and the `timestamp`
and `messageId` defaults.  `now` is the current time, `nodeVersion` is
`process.versions.node`, and `md5f`/`uu` stand for the external `md5` and
`uuid` collaborators. -/
def enrichBase (msg : Obj) (type : String) (now : JsValue) (nodeVersion : String)
    (md5f : String → String) (uu : String) : Obj :=
  let m := setField msg "type" (.vStr type)
  let m := setField m "context" (.vObj (objAssign libraryContext (ownFields (getField m "context"))))
  let m := setField m "_metadata" (.vObj (objAssign (metadataBase nodeVersion) (ownFields (getField m "_metadata"))))
  let m := if jsTruthy (jsGet m "timestamp") then m else setField m "timestamp" now
  if jsTruthy (jsGet m "messageId") then m
  else setField m "messageId"
    (.vStr ("node-" ++ md5f (jsonStringify (.vObj m)) ++ "-" ++ uu))

/-- One id-coercion statement of the enricher: if the field named `k` is
truthy and not already a string, replace it by its `JSON.stringify`. -/
def coerceIdStep (k : String) (m : Obj) : Obj :=
  if jsTruthy (jsGet m k) && !isString (jsGet m k)
  then setField m k (.vStr (jsonStringify (jsGet m k)))
  else m

/-- The second half of the enricher (src/index.js lines 121-126): coerce
`anonymousId` and then `userId` to text when truthy and not a string. -/
def coerceIds (m : Obj) : Obj :=
  coerceIdStep "userId" (coerceIdStep "anonymousId" m)

/-- The message enricher: the body of `enqueue` from the shallow copy of
the message up to the `userId` coercion (src/index.js lines 96-126). -/
def enrich (msg : Obj) (type : String) (now : JsValue) (nodeVersion : String)
    (md5f : String → String) (uu : String) : Obj :=
  coerceIds (enrichBase msg type now nodeVersion md5f uu)

/-- A queue entry: one enriched record paired with its completion
callback (callbacks are identified by numbers in the model). -/
structure Entry where
  message : Obj
  cb : Nat
deriving Repr

/-- The client state (`this` of the `TheAnalyticsAPI` class): the queue,
configuration, the has-flushed-once flag and the pending-timer handle. -/
structure Client where
  queue : List Entry
  writeKey : JsValue
  host : String
  timeout : Option Int
  flushAt : Nat
  flushInterval : Int
  flushed : Bool
  timer : Bool
  enable : Bool
deriving Repr

/-- The JSON body of a flush request: the batch plus two timestamps. -/
structure BatchData where
  batch : List Obj
  timestamp : JsValue
  sentAt : JsValue
deriving Repr

/-- A flush's HTTP request as handed to the transport. -/
structure Request where
  method : String
  url : String
  data : BatchData
  headers : Obj
  timeout : Option Int
deriving Repr

/-- The synchronous outcome of one `flush` invocation: the new state,
the request issued (if any) with the batch's entry callbacks, and whether
the flush callback was scheduled immediately with no error. -/
structure FlushOut where
  state : Client
  request : Option Request
  batchCbs : List Nat
  immediateCb : Bool
deriving Repr

/-- The synchronous part of `flush` (src/index.js lines 152-202): disabled
no-op, timer clearing, empty-queue no-op, the FIFO splice of up to
`flushAt` entries, and the construction of the POST request. -/
def flushSync (c : Client) (now : JsValue) : FlushOut :=
  if !c.enable then
    { state := c, request := none, batchCbs := [], immediateCb := true }
  else
    let c1 := if c.timer then { c with timer := false } else c
    if c1.queue.length = 0 then
      { state := c1, request := none, batchCbs := [], immediateCb := true }
    else
      let items := c1.queue.take c1.flushAt
      let c2 := { c1 with queue := c1.queue.drop c1.flushAt }
      let callbacks := items.map Entry.cb
      let messages := items.map Entry.message
      let data : BatchData := { batch := messages, timestamp := now, sentAt := now }
      let headers : Obj :=
        [("user-agent", .vStr ("theanalyticsapi-client-node/" ++ libVersion)),
         ("api_key", c2.writeKey)]
      let req : Request :=
        { method := "POST", url := c2.host ++ "/api/track/events",
          data := data, headers := headers, timeout := c2.timeout }
      { state := c2, request := some req, batchCbs := callbacks, immediateCb := false }

/-- The outcome of one `enqueue` invocation: the new state, whether the
callback was scheduled immediately (disabled mode), whether `flush` was
invoked during the call, and the request that flush issued, if any. -/
structure EnqueueOut where
  state : Client
  immediateCb : Option Nat
  didFlush : Bool
  request : Option Request
deriving Repr

/-- `enqueue` (src/index.js lines 89-143): disabled no-op, enrichment,
append, then the flush triggers — first-ever enqueue (which returns
early), size threshold, and timer arming. -/
def enqueueStep (c : Client) (type : String) (msg : Obj) (cb : Nat)
    (now : JsValue) (nodeVersion : String) (md5f : String → String) (uu : String) :
    EnqueueOut :=
  if !c.enable then
    { state := c, immediateCb := some cb, didFlush := false, request := none }
  else
    let message := enrich msg type now nodeVersion md5f uu
    let c1 := { c with queue := c.queue ++ [{ message := message, cb := cb }] }
    if !c1.flushed then
      let fr := flushSync { c1 with flushed := true } now
      { state := fr.state, immediateCb := none, didFlush := true, request := fr.request }
    else
      let sizeStep :=
        if c1.flushAt ≤ c1.queue.length then
          let fr := flushSync c1 now
          (fr.state, true, fr.request)
        else (c1, false, (none : Option Request))
      let c2 := sizeStep.1
      let c3 := if c2.flushInterval != 0 && !c2.timer then { c2 with timer := true } else c2
      { state := c3, immediateCb := none, didFlush := sizeStep.2.1, request := sizeStep.2.2 }

/-- A response attached to a failed request. -/
structure Response where
  status : Nat
  statusText : String
deriving Repr

/-- An error value as seen by callbacks: a message, and the failed
response when the remote answered with an error status. -/
structure JsError where
  message : String
  response : Option Response
deriving Repr

/-- The final outcome the transport reports for a flush's request. -/
inductive Outcome where
  | success : Outcome
  | failure : JsError → Outcome

/-- One observable callback event of a settled flush. -/
inductive FlushEvent where
  | entryCb : Nat → Option JsError → FlushEvent
  | flushCb : Nat → Option JsError → BatchData → FlushEvent
deriving Repr

/-- `done` (src/index.js lines 178-181): invoke every entry callback with
the one shared error, then the flush callback with the error and the data. -/
def doneEvents (batchCbs : List Nat) (flushCb : Nat) (data : BatchData)
    (err : Option JsError) : List FlushEvent :=
  batchCbs.map (fun cb => .entryCb cb err) ++ [.flushCb flushCb err data]

/-- The promise handlers of the request (src/index.js lines 202-211):
success settles with no error; a failure carrying a response settles with
a new error built from the response's status text; any other failure
settles with the transport error as-is. -/
def settleFlush (batchCbs : List Nat) (flushCb : Nat) (data : BatchData) :
    Outcome → List FlushEvent
  | .success => doneEvents batchCbs flushCb data none
  | .failure err =>
      match err.response with
      | some r => doneEvents batchCbs flushCb data (some { message := r.statusText, response := none })
      | none => doneEvents batchCbs flushCb data (some err)

/-- An error as classified by the retry policy: `networkError` is the
verdict of the external `axiosRetry.isNetworkError` collaborator. -/
structure AxiosError where
  networkError : Bool
  response : Option Response
deriving Repr

/-- `_isErrorRetryable` (src/index.js lines 214-236). -/
def isErrorRetryable (e : AxiosError) : Bool :=
  if e.networkError then true
  else
    match e.response with
    | none => false
    | some r =>
        if 500 ≤ r.status && r.status ≤ 599 then true
        else if r.status = 429 then true
        else false

/-- `remove-trailing-slash`: strip every trailing `/` from the host. -/
def removeSlash (s : String) : String :=
  String.mk ((s.data.reverse.dropWhile (· = '/')).reverse)

/-- Recognized constructor options. -/
structure Options where
  host : Option String
  timeout : Option Int
  flushAt : Option Int
  flushInterval : Option Int
  enable : Option Bool
  retryCount : Option Int
deriving Repr

/-- An options object with nothing set. -/
def Options.none : Options :=
  { host := Option.none, timeout := Option.none, flushAt := Option.none,
    flushInterval := Option.none, enable := Option.none, retryCount := Option.none }

/-- The constructor (src/index.js lines 32-55): assert a truthy write key,
then initialize the queue, configuration and flags.  `Math.max(x, 1) || 20`
clamps a given `flushAt` to at least 1 and defaults it to 20; a falsy
`flushInterval` falls back to 10000. -/
def mkClient (writeKey : JsValue) (options : Options) : Except String Client :=
  if !jsTruthy writeKey then
    .error "You must pass your project\x27s write key."
  else
    .ok
      { queue := []
        writeKey := writeKey
        host := removeSlash
          (options.host.getD "https://tanalytics-collector-api-6wyfjoyn3q-uc.a.run.app")
        timeout := options.timeout
        flushAt := match options.flushAt with
          | some n => (max n 1).toNat
          | Option.none => 20
        flushInterval := match options.flushInterval with
          | some n => if n = 0 then 10000 else n
          | Option.none => 10000
        flushed := false
        timer := false
        enable := options.enable.getD true }

/-- A stand-in for the external md5 collaborator, for concrete runs. -/
def md5stub : String → String := fun _ => "H"

/-- A concrete enabled client as produced by the constructor defaults. -/
def baseClient : Client :=
  { queue := [], writeKey := .vStr "k", host := "h", timeout := Option.none,
    flushAt := 20, flushInterval := 10000, flushed := false, timer := false,
    enable := true }

/-- What the enrichment step leaves under an id field: absent stays
absent; a truthy non-string value is replaced by its serialization; any
other value is left alone. -/
def coerceId : Option JsValue → Option JsValue
  | Option.none => Option.none
  | some v =>
      if jsTruthy v && !isString v then some (.vStr (jsonStringify v)) else some v

theorem getField_coerceIdStep_ne (k : String) (m : Obj) (key : String)
    (h : key ≠ k) : getField (coerceIdStep k m) key = getField m key := by
  unfold coerceIdStep
  split
  · exact getField_setField_ne _ _ _ _ h
  · rfl

theorem getField_coerceIdStep_self (k : String) (m : Obj) :
    getField (coerceIdStep k m) k = coerceId (getField m k) := by
  unfold coerceIdStep
  cases h : getField m k with
  | none => simp [jsGet, h, jsTruthy, coerceId]
  | some v =>
      simp only [jsGet, h, Option.getD_some, coerceId]
      by_cases hP : (jsTruthy v && !isString v) = true
      · simp [hP, getField_setField_self]
      · simp [hP, h]

theorem getField_coerceIds_ne (m : Obj) (key : String)
    (ha : key ≠ "anonymousId") (hu : key ≠ "userId") :
    getField (coerceIds m) key = getField m key := by
  unfold coerceIds
  rw [getField_coerceIdStep_ne _ _ _ hu, getField_coerceIdStep_ne _ _ _ ha]

theorem getField_coerceIds_anonymousId (m : Obj) :
    getField (coerceIds m) "anonymousId" = coerceId (getField m "anonymousId") := by
  unfold coerceIds
  rw [getField_coerceIdStep_ne _ _ _ (by decide), getField_coerceIdStep_self]

theorem getField_coerceIds_userId (m : Obj) :
    getField (coerceIds m) "userId" = coerceId (getField m "userId") := by
  unfold coerceIds
  rw [getField_coerceIdStep_self, getField_coerceIdStep_ne _ _ _ (by decide)]

theorem getField_enrichBase_ne (msg : Obj) (t : String) (now : JsValue)
    (nv : String) (md5f : String → String) (uu : String) (key : String)
    (h1 : key ≠ "type") (h2 : key ≠ "context") (h3 : key ≠ "_metadata")
    (h4 : key ≠ "timestamp") (h5 : key ≠ "messageId") :
    getField (enrichBase msg t now nv md5f uu) key = getField msg key := by
  simp only [enrichBase]
  split <;> split <;>
    simp only [getField_setField_ne _ _ _ _ h5, getField_setField_ne _ _ _ _ h4,
      getField_setField_ne _ _ _ _ h3, getField_setField_ne _ _ _ _ h2,
      getField_setField_ne _ _ _ _ h1]

theorem enrich_anonymousId (msg : Obj) (t : String) (now : JsValue) (nv : String)
    (md5f : String → String) (uu : String) :
    getField (enrich msg t now nv md5f uu) "anonymousId" =
      coerceId (getField msg "anonymousId") := by
  unfold enrich
  rw [getField_coerceIds_anonymousId,
    getField_enrichBase_ne _ _ _ _ _ _ _ (by decide) (by decide) (by decide)
      (by decide) (by decide)]

theorem enrich_userId (msg : Obj) (t : String) (now : JsValue) (nv : String)
    (md5f : String → String) (uu : String) :
    getField (enrich msg t now nv md5f uu) "userId" =
      coerceId (getField msg "userId") := by
  unfold enrich
  rw [getField_coerceIds_userId,
    getField_enrichBase_ne _ _ _ _ _ _ _ (by decide) (by decide) (by decide)
      (by decide) (by decide)]

theorem getField_enrichBase_context (msg : Obj) (t : String) (now : JsValue)
    (nv : String) (md5f : String → String) (uu : String) :
    getField (enrichBase msg t now nv md5f uu) "context" =
      some (.vObj (objAssign libraryContext (ownFields (getField msg "context")))) := by
  have h1 : ("context" : String) ≠ "type" := by decide
  have h3 : ("context" : String) ≠ "_metadata" := by decide
  have h4 : ("context" : String) ≠ "timestamp" := by decide
  have h5 : ("context" : String) ≠ "messageId" := by decide
  simp only [enrichBase]
  split <;> split <;>
    simp only [getField_setField_ne _ _ _ _ h5, getField_setField_ne _ _ _ _ h4,
      getField_setField_ne _ _ _ _ h3, getField_setField_self,
      getField_setField_ne _ _ _ _ h1]

theorem getField_enrichBase_metadata (msg : Obj) (t : String) (now : JsValue)
    (nv : String) (md5f : String → String) (uu : String) :
    getField (enrichBase msg t now nv md5f uu) "_metadata" =
      some (.vObj (objAssign (metadataBase nv) (ownFields (getField msg "_metadata")))) := by
  have h1 : ("_metadata" : String) ≠ "type" := by decide
  have h2 : ("_metadata" : String) ≠ "context" := by decide
  have h4 : ("_metadata" : String) ≠ "timestamp" := by decide
  have h5 : ("_metadata" : String) ≠ "messageId" := by decide
  simp only [enrichBase]
  split <;> split <;>
    simp only [getField_setField_ne _ _ _ _ h5, getField_setField_ne _ _ _ _ h4,
      getField_setField_self, getField_setField_ne _ _ _ _ h2,
      getField_setField_ne _ _ _ _ h1]

theorem getField_enrich_context (msg : Obj) (t : String) (now : JsValue)
    (nv : String) (md5f : String → String) (uu : String) :
    getField (enrich msg t now nv md5f uu) "context" =
      some (.vObj (objAssign libraryContext (ownFields (getField msg "context")))) := by
  unfold enrich
  rw [getField_coerceIds_ne _ _ (by decide) (by decide), getField_enrichBase_context]

theorem getField_enrich_metadata (msg : Obj) (t : String) (now : JsValue)
    (nv : String) (md5f : String → String) (uu : String) :
    getField (enrich msg t now nv md5f uu) "_metadata" =
      some (.vObj (objAssign (metadataBase nv) (ownFields (getField msg "_metadata")))) := by
  unfold enrich
  rw [getField_coerceIds_ne _ _ (by decide) (by decide), getField_enrichBase_metadata]

theorem flushSync_state_fields (c : Client) (now : JsValue) :
    (flushSync c now).state.writeKey = c.writeKey
    ∧ (flushSync c now).state.flushInterval = c.flushInterval
    ∧ (flushSync c now).state.flushAt = c.flushAt
    ∧ (flushSync c now).state.enable = c.enable
    ∧ (flushSync c now).state.flushed = c.flushed := by
  obtain ⟨q, wk, hs, tmo, fa, fi, fl, tm, en⟩ := c
  cases en <;> cases tm <;> by_cases hq : q.length = 0 <;> simp [flushSync, hq]

theorem flushSync_timer_of_enable (c : Client) (now : JsValue)
    (h : c.enable = true) : (flushSync c now).state.timer = false := by
  obtain ⟨q, wk, hs, tmo, fa, fi, fl, tm, en⟩ := c
  cases en
  · exact absurd h (by simp)
  · cases tm <;> by_cases hq : q.length = 0 <;> simp [flushSync, hq]

theorem enqueueStep_state_writeKey (c : Client) (type : String) (msg : Obj)
    (cb : Nat) (now : JsValue) (nv : String) (md5f : String → String) (uu : String) :
    (enqueueStep c type msg cb now nv md5f uu).state.writeKey = c.writeKey := by
  obtain ⟨q, wk, hs, tmo, fa, fi, fl, tm, en⟩ := c
  cases en
  · simp [enqueueStep]
  · cases fl
    · simp [enqueueStep, flushSync_state_fields]
    · by_cases hsz : fa ≤ q.length + 1 <;> cases tm <;>
        simp [enqueueStep, hsz, apply_ite, (flushSync_state_fields _ _).1]

theorem coerceId_serializes (v : JsValue) (ht : jsTruthy v = true)
    (hs : isString v = false) :
    coerceId (some v) = some (.vStr (jsonStringify v)) := by
  simp [coerceId, ht, hs]

theorem coerceId_text (o : Option JsValue) (v : JsValue) (h : coerceId o = some v)
    (ht : jsTruthy v = true) : isString v = true := by
  cases o with
  | none => simp [coerceId] at h
  | some w =>
      simp only [coerceId] at h
      by_cases hw : (jsTruthy w && !isString w) = true
      · rw [if_pos hw] at h
        injection h with h
        subst h
        rfl
      · rw [if_neg hw] at h
        injection h with h
        rw [← h] at ht ⊢
        cases hstr : isString w with
        | false => exact absurd (by simp [ht, hstr]) hw
        | true => rfl

theorem flushSync_state_queue (c : Client) (now : JsValue) (h : c.enable = true) :
    (flushSync c now).state.queue = c.queue.drop c.flushAt := by
  obtain ⟨q, wk, hs, tmo, fa, fi, fl, tm, en⟩ := c
  have he : en = true := h
  subst he
  cases tm <;> by_cases hq : q.length = 0 <;>
    simp_all [flushSync, List.length_eq_zero]

theorem flushSync_request_of_nonempty (c : Client) (now : JsValue)
    (h : c.enable = true) (hq : c.queue ≠ []) :
    (flushSync c now).request = some
      { method := "POST", url := c.host ++ "/api/track/events",
        data := { batch := (c.queue.take c.flushAt).map Entry.message,
                  timestamp := now, sentAt := now },
        headers := [("user-agent", .vStr ("theanalyticsapi-client-node/" ++ libVersion)),
                    ("api_key", c.writeKey)],
        timeout := c.timeout }
    ∧ (flushSync c now).batchCbs = (c.queue.take c.flushAt).map Entry.cb
    ∧ (flushSync c now).immediateCb = false := by
  obtain ⟨q, wk, hs, tmo, fa, fi, fl, tm, en⟩ := c
  have he : en = true := h
  subst he
  have hq' : ¬ q.length = 0 := by
    intro h0
    exact hq (List.length_eq_zero.mp h0)
  cases tm <;> simp [flushSync, hq']

theorem flushSync_disabled (c : Client) (now : JsValue) (h : c.enable = false) :
    flushSync c now = { state := c, request := none, batchCbs := [], immediateCb := true } := by
  obtain ⟨q, wk, hs, tmo, fa, fi, fl, tm, en⟩ := c
  have he : en = false := h
  subst he
  simp [flushSync]

theorem enqueueStep_disabled (c : Client) (type : String) (msg : Obj) (cb : Nat)
    (now : JsValue) (nv : String) (md5f : String → String) (uu : String)
    (h : c.enable = false) :
    enqueueStep c type msg cb now nv md5f uu =
      { state := c, immediateCb := some cb, didFlush := false, request := none } := by
  obtain ⟨q, wk, hs, tmo, fa, fi, fl, tm, en⟩ := c
  have he : en = false := h
  subst he
  simp [enqueueStep]

/-- C1: the claim says a present, non-string `anonymousId`/`userId` is
always serialized to text by enrichment.  Refuted: the code guards the
coercion by truthiness, not presence, so the present falsy non-string
value `0` is stored in the queue unchanged and non-text. -/
theorem claim1_counterexample :
    getField [("event", JsValue.vStr "E"), ("anonymousId", JsValue.vNum 0)] "anonymousId"
        = some (JsValue.vNum 0)
    ∧ isString (JsValue.vNum 0) = false
    ∧ (enqueueStep { baseClient with flushed := true } "track"
          [("event", .vStr "E"), ("anonymousId", .vNum 0)] 1 (.vStr "T") "v16"
          md5stub "U").state.queue.map (fun e => getField e.message "anonymousId")
        = [some (JsValue.vNum 0)] :=
  ⟨rfl, rfl, rfl⟩

/-- C1 (amended): enrichment replaces an id field by its `JSON.stringify`
exactly when the field is truthy and not already a string; consequently
every record leaving the enricher has a text-typed `anonymousId`/`userId`
whenever the field is present with a truthy value (present falsy
non-string values stay untouched). -/
theorem claim1_id_coercion_amended (msg : Obj) (t : String) (now : JsValue)
    (nv : String) (md5f : String → String) (uu : String) :
    (∀ v, getField msg "anonymousId" = some v → jsTruthy v = true → isString v = false →
      getField (enrich msg t now nv md5f uu) "anonymousId"
        = some (.vStr (jsonStringify v)))
    ∧ (∀ v, getField (enrich msg t now nv md5f uu) "anonymousId" = some v →
      jsTruthy v = true → isString v = true)
    ∧ (∀ v, getField msg "userId" = some v → jsTruthy v = true → isString v = false →
      getField (enrich msg t now nv md5f uu) "userId"
        = some (.vStr (jsonStringify v)))
    ∧ (∀ v, getField (enrich msg t now nv md5f uu) "userId" = some v →
      jsTruthy v = true → isString v = true) := by
  refine ⟨?_, ?_, ?_, ?_⟩
  · intro v hv ht hs
    rw [enrich_anonymousId, hv, coerceId_serializes v ht hs]
  · intro v hv ht
    rw [enrich_anonymousId] at hv
    exact coerceId_text _ v hv ht
  · intro v hv ht hs
    rw [enrich_userId, hv, coerceId_serializes v ht hs]
  · intro v hv ht
    rw [enrich_userId] at hv
    exact coerceId_text _ v hv ht

/-- C1 witness: a truthy numeric `anonymousId` is serialized to `"5"`. -/
theorem claim1_witness :
    getField (enrich [("anonymousId", JsValue.vNum 5)] "track" (.vStr "T") "v16"
      md5stub "U") "anonymousId" = some (.vStr "5") := by
  have h := (claim1_id_coercion_amended [("anonymousId", JsValue.vNum 5)] "track"
      (.vStr "T") "v16" md5stub "U").1 (JsValue.vNum 5) rfl rfl rfl
  exact h

/-- C2: the claim says all three flush triggers are evaluated on every
enqueue, so a truthy `flushInterval` with no pending timer always arms a
timer, including on the very first enqueue.  Refuted: the first-ever
enqueue returns right after its forced flush, skipping the size and timer
triggers, so no timer is pending at return despite `flushInterval` being
truthy. -/
theorem claim2_counterexample :
    baseClient.flushInterval = 10000
    ∧ baseClient.timer = false
    ∧ baseClient.flushed = false
    ∧ baseClient.enable = true
    ∧ (enqueueStep baseClient "track" [("event", .vStr "E")] 1 (.vStr "T") "v16"
        md5stub "U").state.timer = false :=
  ⟨rfl, rfl, rfl, rfl, rfl⟩

/-- C2 (amended): on every enqueue on an enabled client after the first,
the size and timer triggers are evaluated and a truthy `flushInterval`
guarantees a pending timer at return; on the first-ever enqueue the call
flushes and returns early without evaluating them, so no timer is armed. -/
theorem claim2_triggers_amended (c : Client) (type : String) (msg : Obj) (cb : Nat)
    (now : JsValue) (nv : String) (md5f : String → String) (uu : String)
    (he : c.enable = true) :
    (c.flushed = true → c.flushInterval ≠ 0 →
      (enqueueStep c type msg cb now nv md5f uu).state.timer = true)
    ∧ (c.flushed = false →
      (enqueueStep c type msg cb now nv md5f uu).state.timer = false
      ∧ (enqueueStep c type msg cb now nv md5f uu).didFlush = true) := by
  obtain ⟨q, wk, hs, tmo, fa, fi, fl, tm, en⟩ := c
  have he' : en = true := he
  subst he'
  constructor
  · intro hf hi
    have hf' : fl = true := hf
    subst hf'
    have hi' : fi ≠ 0 := hi
    by_cases hsz : fa ≤ q.length + 1 <;> cases tm <;>
      simp [enqueueStep, hsz, apply_ite, flushSync_timer_of_enable,
        (flushSync_state_fields _ _).2.1, bne_iff_ne, hi']
  · intro hf
    have hf' : fl = false := hf
    subst hf'
    simp [enqueueStep, flushSync_timer_of_enable]

/-- C2 witness: a post-first enqueue with the default truthy
`flushInterval` leaves a pending timer. -/
theorem claim2_witness :
    (enqueueStep { baseClient with flushed := true } "track" [("event", .vStr "E")] 1
      (.vStr "T") "v16" md5stub "U").state.timer = true :=
  (claim2_triggers_amended { baseClient with flushed := true } "track"
    [("event", .vStr "E")] 1 (.vStr "T") "v16" md5stub "U" rfl).1 rfl (by decide)

/-- C3: a flush on an enabled client with a non-empty queue of length n
removes exactly min(n, flushAt) entries from the front in FIFO order to
form the batch, and the remaining entries stay queued in order. -/
theorem claim3_fifo_splice (c : Client) (now : JsValue)
    (he : c.enable = true) (hq : c.queue ≠ []) :
    (flushSync c now).request.map (fun r => r.data.batch)
        = some ((c.queue.take c.flushAt).map Entry.message)
    ∧ (flushSync c now).state.queue = c.queue.drop c.flushAt
    ∧ (c.queue.take c.flushAt).length = min c.queue.length c.flushAt
    ∧ c.queue.take c.flushAt ++ c.queue.drop c.flushAt = c.queue := by
  refine ⟨?_, flushSync_state_queue c now he, ?_, List.take_append_drop _ _⟩
  · rw [(flushSync_request_of_nonempty c now he hq).1]
    rfl
  · rw [List.length_take, Nat.min_comm]

/-- C3 witness: with flushAt 2 and three queued entries A, B, C, the
batch is [A, B] and C stays queued. -/
theorem claim3_witness :
    (flushSync { baseClient with
          flushed := true,
          flushAt := 2,
          queue := [{ message := [("event", .vStr "A")], cb := 1 },
                    { message := [("event", .vStr "B")], cb := 2 },
                    { message := [("event", .vStr "C")], cb := 3 }] }
      (.vStr "T")).request.map (fun r => r.data.batch)
        = some [[("event", JsValue.vStr "A")], [("event", JsValue.vStr "B")]]
    ∧ (flushSync { baseClient with
          flushed := true,
          flushAt := 2,
          queue := [{ message := [("event", .vStr "A")], cb := 1 },
                    { message := [("event", .vStr "B")], cb := 2 },
                    { message := [("event", .vStr "C")], cb := 3 }] }
      (.vStr "T")).state.queue = [{ message := [("event", .vStr "C")], cb := 3 }] := by
  have h := claim3_fifo_splice { baseClient with
      flushed := true,
      flushAt := 2,
      queue := [{ message := [("event", .vStr "A")], cb := 1 },
                { message := [("event", .vStr "B")], cb := 2 },
                { message := [("event", .vStr "C")], cb := 3 }] }
    (.vStr "T") rfl (by simp)
  exact ⟨h.1, h.2.1⟩

/-- C4: when a flush's request fails, the error handed to callbacks is a
fresh error carrying the response's status text when a response is
present, and the transport error itself otherwise; every entry callback
of the batch receives that one shared error, followed by the flush
callback with the same error and the batch. -/
theorem claim4_failure_error (batchCbs : List Nat) (flushCb : Nat) (data : BatchData)
    (err : JsError) :
    (∀ r, err.response = some r →
      settleFlush batchCbs flushCb data (.failure err) =
        batchCbs.map (fun cb =>
            .entryCb cb (some { message := r.statusText, response := Option.none }))
          ++ [.flushCb flushCb
                (some { message := r.statusText, response := Option.none }) data])
    ∧ (err.response = Option.none →
      settleFlush batchCbs flushCb data (.failure err) =
        batchCbs.map (fun cb => .entryCb cb (some err))
          ++ [.flushCb flushCb (some err) data]) := by
  constructor
  · intro r hr
    simp [settleFlush, hr, doneEvents]
  · intro hr
    simp [settleFlush, hr, doneEvents]

/-- C4 witness: a 500 response with status text Server Error settles both
entry callbacks and the flush callback with that one error. -/
theorem claim4_witness :
    settleFlush [1, 2] 9 { batch := [], timestamp := .vNull, sentAt := .vNull }
        (.failure { message := "boom"
                    response := some { status := 500, statusText := "Server Error" } })
      = [.entryCb 1 (some { message := "Server Error", response := Option.none }),
         .entryCb 2 (some { message := "Server Error", response := Option.none }),
         .flushCb 9 (some { message := "Server Error", response := Option.none })
           { batch := [], timestamp := .vNull, sentAt := .vNull }] := by
  have h := (claim4_failure_error [1, 2] 9
      { batch := [], timestamp := .vNull, sentAt := .vNull }
      { message := "boom"
        response := some { status := 500, statusText := "Server Error" } }).1
      { status := 500, statusText := "Server Error" } rfl
  simpa using h

/-- C5: the first-ever enqueue on an enabled client (has-flushed-once
flag unset) invokes a flush within that same call, regardless of queue
length relative to flushAt, and sets the has-flushed-once flag. -/
theorem claim5_first_enqueue_flushes (c : Client) (type : String) (msg : Obj)
    (cb : Nat) (now : JsValue) (nv : String) (md5f : String → String) (uu : String)
    (he : c.enable = true) (hf : c.flushed = false) :
    (enqueueStep c type msg cb now nv md5f uu).didFlush = true
    ∧ (enqueueStep c type msg cb now nv md5f uu).state.flushed = true := by
  obtain ⟨q, wk, hs, tmo, fa, fi, fl, tm, en⟩ := c
  have he' : en = true := he
  subst he'
  have hf' : fl = false := hf
  subst hf'
  simp [enqueueStep, (flushSync_state_fields _ _).2.2.2.2]

/-- C5 witness: the first enqueue on a default-configured client flushes
and sets the flag. -/
theorem claim5_witness :
    (enqueueStep baseClient "track" [("event", .vStr "E")] 1 (.vStr "T") "v16"
      md5stub "U").didFlush = true
    ∧ (enqueueStep baseClient "track" [("event", .vStr "E")] 1 (.vStr "T") "v16"
      md5stub "U").state.flushed = true :=
  claim5_first_enqueue_flushes baseClient "track" [("event", .vStr "E")] 1
    (.vStr "T") "v16" md5stub "U" rfl rfl

/-- C6: on a disabled client, enqueue and flush change no state, enrich
nothing, arm no timer, issue no request, and schedule the supplied
callback asynchronously with no error. -/
theorem claim6_disabled_noop (c : Client) (type : String) (msg : Obj) (cb : Nat)
    (now : JsValue) (nv : String) (md5f : String → String) (uu : String)
    (h : c.enable = false) :
    enqueueStep c type msg cb now nv md5f uu =
      { state := c, immediateCb := some cb, didFlush := false, request := none }
    ∧ flushSync c now =
      { state := c, request := none, batchCbs := [], immediateCb := true } :=
  ⟨enqueueStep_disabled c type msg cb now nv md5f uu h, flushSync_disabled c now h⟩

/-- C6 witness: a concrete disabled client is a no-op for both enqueue
and flush. -/
theorem claim6_witness :
    enqueueStep { baseClient with enable := false } "track" [("event", .vStr "E")] 7
        (.vStr "T") "v16" md5stub "U" =
      { state := { baseClient with enable := false }, immediateCb := some 7,
        didFlush := false, request := none }
    ∧ flushSync { baseClient with enable := false } (.vStr "T") =
      { state := { baseClient with enable := false }, request := none,
        batchCbs := [], immediateCb := true } :=
  claim6_disabled_noop { baseClient with enable := false } "track"
    [("event", .vStr "E")] 7 (.vStr "T") "v16" md5stub "U" rfl

/-- C7: the retry classifier returns true exactly for a network-level
failure (which carries no response), a response status in 500-599, or
status exactly 429; every other failure is not retryable. -/
theorem claim7_retry_classifier (e : AxiosError)
    (hax : e.networkError = true → e.response = Option.none) :
    isErrorRetryable e = true ↔
      (e.networkError = true ∧ e.response = Option.none)
      ∨ ∃ r, e.response = some r ∧ ((500 ≤ r.status ∧ r.status ≤ 599) ∨ r.status = 429) := by
  obtain ⟨nerr, resp⟩ := e
  cases nerr with
  | true =>
      have hr : resp = Option.none := hax rfl
      subst hr
      simp [isErrorRetryable]
  | false =>
      cases resp with
      | none => simp [isErrorRetryable]
      | some r =>
          by_cases h1 : 500 ≤ r.status <;> by_cases h2 : r.status ≤ 599 <;>
            by_cases h3 : r.status = 429 <;>
            simp [isErrorRetryable, h1, h2, h3]

/-- C7 witness: a 503 response is classified retryable. -/
theorem claim7_witness :
    isErrorRetryable { networkError := false
                       response := some { status := 503, statusText := "Service Unavailable" } } = true :=
  (claim7_retry_classifier
    { networkError := false
      response := some { status := 503, statusText := "Service Unavailable" } }
    (fun h => absurd h (by decide))).mpr
    (Or.inr ⟨{ status := 503, statusText := "Service Unavailable" }, rfl,
      Or.inl (by decide)⟩)

/-- C8: the enriched `context` is the shallow `Object.assign` merge of the
library-identity base with the caller context on top, so on every key
collision the caller's value wins and absent keys fall back to the base;
`_metadata` merges the same way over the runtime-version base.  The
enricher is a pure function of the raw event: the caller's object is an
unchanged input, never mutated. -/
theorem claim8_context_merge (msg : Obj) (t : String) (now : JsValue) (nv : String)
    (md5f : String → String) (uu : String) (ctx meta : Obj)
    (hctx : getField msg "context" = some (.vObj ctx))
    (hndc : (ctx.map Prod.fst).Nodup)
    (hmeta : getField msg "_metadata" = some (.vObj meta))
    (hndm : (meta.map Prod.fst).Nodup) :
    getField (enrich msg t now nv md5f uu) "context"
        = some (.vObj (objAssign libraryContext ctx))
    ∧ (∀ k v, getField ctx k = some v →
        getField (objAssign libraryContext ctx) k = some v)
    ∧ (∀ k, getField ctx k = Option.none →
        getField (objAssign libraryContext ctx) k = getField libraryContext k)
    ∧ getField (enrich msg t now nv md5f uu) "_metadata"
        = some (.vObj (objAssign (metadataBase nv) meta))
    ∧ (∀ k v, getField meta k = some v →
        getField (objAssign (metadataBase nv) meta) k = some v)
    ∧ (∀ k, getField meta k = Option.none →
        getField (objAssign (metadataBase nv) meta) k = getField (metadataBase nv) k) := by
  refine ⟨?_, ?_, ?_, ?_, ?_, ?_⟩
  · rw [getField_enrich_context, hctx]
    rfl
  · intro k v hv
    exact getField_objAssign_of_mem _ _ _ _ hndc hv
  · intro k hv
    exact getField_objAssign_of_not_mem _ _ _ hv
  · rw [getField_enrich_metadata, hmeta]
    rfl
  · intro k v hv
    exact getField_objAssign_of_mem _ _ _ _ hndm hv
  · intro k hv
    exact getField_objAssign_of_not_mem _ _ _ hv

/-- C8 witness: a caller context whose `library` key collides with the
base keeps the caller's value in the enriched record. -/
theorem claim8_witness :
    getField (enrich [("context", JsValue.vObj [("library", JsValue.vStr "mine")]),
        ("_metadata", JsValue.vObj [("m", JsValue.vNum 1)])] "track"
        (.vStr "T") "v16" md5stub "U") "context"
      = some (.vObj [("library", .vStr "mine")]) := by
  have h := (claim8_context_merge
      [("context", JsValue.vObj [("library", JsValue.vStr "mine")]),
       ("_metadata", JsValue.vObj [("m", JsValue.vNum 1)])]
      "track" (.vStr "T") "v16" md5stub "U"
      [("library", JsValue.vStr "mine")] [("m", JsValue.vNum 1)]
      rfl (by decide) rfl (by decide)).1
  exact h

/-- C9: on a post-first enqueue with a truthy flushInterval whose push
reaches the size threshold exactly, the size-triggered flush runs inside
that same invocation, empties the queue, and the timer is re-armed before
the invocation returns. -/
theorem claim9_rearm_after_size_flush (c : Client) (type : String) (msg : Obj)
    (cb : Nat) (now : JsValue) (nv : String) (md5f : String → String) (uu : String)
    (he : c.enable = true) (hf : c.flushed = true) (hi : c.flushInterval ≠ 0)
    (hsz : c.flushAt = c.queue.length + 1) :
    (enqueueStep c type msg cb now nv md5f uu).didFlush = true
    ∧ (enqueueStep c type msg cb now nv md5f uu).state.queue = []
    ∧ (enqueueStep c type msg cb now nv md5f uu).state.timer = true := by
  obtain ⟨q, wk, hs, tmo, fa, fi, fl, tm, en⟩ := c
  have he' : en = true := he
  subst he'
  have hf' : fl = true := hf
  subst hf'
  have hi' : fi ≠ 0 := hi
  have hsz' : fa = q.length + 1 := hsz
  subst hsz'
  cases tm <;>
    simp [enqueueStep, apply_ite, flushSync_timer_of_enable, flushSync_state_queue,
      (flushSync_state_fields _ _).2.1, bne_iff_ne, hi', List.drop_eq_nil_of_le]

/-- C9 witness: with flushAt 1, a post-first enqueue size-flushes and
still leaves a pending timer. -/
theorem claim9_witness :
    (enqueueStep { baseClient with flushed := true, flushAt := 1 } "track"
      [("event", .vStr "E")] 1 (.vStr "T") "v16" md5stub "U").didFlush = true
    ∧ (enqueueStep { baseClient with flushed := true, flushAt := 1 } "track"
      [("event", .vStr "E")] 1 (.vStr "T") "v16" md5stub "U").state.queue = []
    ∧ (enqueueStep { baseClient with flushed := true, flushAt := 1 } "track"
      [("event", .vStr "E")] 1 (.vStr "T") "v16" md5stub "U").state.timer = true :=
  claim9_rearm_after_size_flush { baseClient with flushed := true, flushAt := 1 }
    "track" [("event", .vStr "E")] 1 (.vStr "T") "v16" md5stub "U" rfl rfl
    (by decide) rfl

/-- C10: constructing with a falsy write key throws the assertion error
before any client state exists; with a truthy write key construction
succeeds, the write key is stored, is never changed by enqueue or flush,
and rides as the api_key header of every flush request. -/
theorem claim10_writeKey (wk : JsValue) (opts : Options) :
    (jsTruthy wk = false →
      mkClient wk opts = .error "You must pass your project\x27s write key.")
    ∧ (jsTruthy wk = true → ∃ c, mkClient wk opts = .ok c ∧ c.writeKey = wk)
    ∧ (∀ (s : Client) (now : JsValue) (r : Request),
        (flushSync s now).request = some r →
        getField r.headers "api_key" = some s.writeKey)
    ∧ (∀ (s : Client) (type : String) (msg : Obj) (cb : Nat) (now : JsValue)
        (nv : String) (md5f : String → String) (uu : String),
        (enqueueStep s type msg cb now nv md5f uu).state.writeKey = s.writeKey)
    ∧ (∀ (s : Client) (now : JsValue),
        (flushSync s now).state.writeKey = s.writeKey) := by
  refine ⟨?_, ?_, ?_, ?_, ?_⟩
  · intro h
    simp [mkClient, h]
  · intro h
    simp only [mkClient, h, Bool.not_true, Bool.false_eq_true, if_false]
    exact ⟨_, rfl, rfl⟩
  · intro s now r hr
    obtain ⟨q, wk', hs, tmo, fa, fi, fl, tm, en⟩ := s
    cases en
    · simp [flushSync] at hr
    · by_cases hq : q.length = 0
      · cases tm <;> simp [flushSync, hq] at hr
      · cases tm <;> simp [flushSync, hq] at hr <;> rw [← hr] <;> rfl
  · intro s type msg cb now nv md5f uu
    exact enqueueStep_state_writeKey s type msg cb now nv md5f uu
  · intro s now
    exact (flushSync_state_fields s now).1

/-- C10 witness: an empty-string write key is rejected with the assert
message; the write key "wk" is accepted and stored. -/
theorem claim10_witness :
    mkClient (JsValue.vStr "") Options.none
        = .error "You must pass your project\x27s write key."
    ∧ ∃ c, mkClient (JsValue.vStr "wk") Options.none = .ok c
        ∧ c.writeKey = JsValue.vStr "wk" :=
  ⟨(claim10_writeKey (JsValue.vStr "") Options.none).1 rfl,
   (claim10_writeKey (JsValue.vStr "wk") Options.none).2.1 rfl⟩

end TheAnalyticsAPI
